import Mathlib

/-!
Verification development for the `tbconfig` Go package: a declarative
configuration-binding engine driven by per-field `config` struct tags.

The Go source (tag parser `parseConfigTag`, binding engine `LoadConfig` /
`loadConfigIntoStruct` / `setFieldValue`, transform dispatch `applyTransform`,
and the auxiliary lookups such as `GetEnvAsInt`) is shallowly embedded below.
Strings are modelled by Lean `String` (a list of characters); the process
environment is an explicit association list `Source`; the Go standard-library
string and strconv routines used by the package are re-defined here, faithful
to their documented byte/char-level behavior on the inputs the package feeds
them.
-/

namespace TbConfig

/-- The process environment: an association list from variable names to values,
    modelling read-only `os.LookupEnv` access. -/
abbrev Source := List (String × String)

/-- Models `os.LookupEnv`: the first binding of the key, if any. -/
def lookupEnv : Source → String → Option String
  | [], _ => none
  | (k, v) :: rest, key => if k = key then some v else lookupEnv rest key

/-- Models the package helper `getEnv(key, defaultVal)`: the environment value
    when the key is set, the caller-supplied default otherwise. -/
def getEnv (src : Source) (key defaultVal : String) : String :=
  match lookupEnv src key with
  | some value => value
  | none => defaultVal

/-! ### Go `strings` routines used by the package -/

/-- Is the first list an initial segment of the second (Go `strings.HasPrefix`
    at the character-list level)? -/
def isPref : List Char → List Char → Bool
  | [], _ => true
  | _ :: _, [] => false
  | p :: ps, c :: cs => p = c && isPref ps cs

/-- Models `strings.HasPrefix`. -/
def goStartsWith (s pre : String) : Bool := isPref pre.data s.data

/-- Models `strings.HasSuffix`. -/
def goEndsWith (s suf : String) : Bool := isPref suf.data.reverse s.data.reverse

/-- Models `strings.TrimPrefix`: removes the leading segment when present,
    otherwise returns the string unchanged. -/
def goDropPref (s pre : String) : String :=
  if isPref pre.data s.data then ⟨s.data.drop pre.data.length⟩ else s

/-- Splitting on a non-empty separator `c0 :: sepRest`: leftmost-match,
    non-overlapping occurrences, exactly as Go `strings.Split`.  The `Nat`
    argument is a structural termination measure; every occurrence of the
    separator consumes at least one character, so any fuel at least the length
    of the list gives the untruncated result (`splitL` passes the length). -/
def splitFuel (c0 : Char) (sepRest : List Char) : Nat → List Char → List (List Char)
  | _, [] => [[]]
  | 0, s => [s]
  | fuel + 1, c :: cs =>
    if c = c0 && isPref sepRest cs then
      [] :: splitFuel c0 sepRest fuel (cs.drop sepRest.length)
    else
      match splitFuel c0 sepRest fuel cs with
      | [] => [[c]]
      | h :: t => (c :: h) :: t

/-- Models `strings.Split` on character lists; an empty separator splits the
    string into its individual characters, as in Go. -/
def splitL (sep s : List Char) : List (List Char) :=
  match sep with
  | [] => s.map (fun c => [c])
  | c0 :: sepRest => splitFuel c0 sepRest s.length s

/-- Models `strings.Split` (and the iterator form `strings.SplitSeq`). -/
def goSplit (s sep : String) : List String :=
  (splitL sep.data s.data).map String.mk

/-- Go `unicode.IsSpace`: the Unicode White_Space property. -/
def goIsSpace (c : Char) : Bool :=
  let n := c.toNat
  (9 ≤ n && n ≤ 13) || n = 32 || n = 133 || n = 160 || n = 5760 ||
    (8192 ≤ n && n ≤ 8202) || n = 8232 || n = 8233 || n = 8239 || n = 8287 || n = 12288

/-- Models `strings.TrimSpace`: removes leading and trailing white space. -/
def goTrimSpace (s : String) : String :=
  ⟨((s.data.dropWhile goIsSpace).reverse.dropWhile goIsSpace).reverse⟩

/-- The single-quote character `U+0027`. -/
def quoteChar : Char := Char.ofNat 39

/-- The one-character string holding a single quote. -/
def quoteStr : String := String.singleton quoteChar

/-- Models `strings.Trim(s, "'")`: removes every leading and trailing
    single-quote character. -/
def goTrimQuotes (s : String) : String :=
  ⟨((s.data.dropWhile (fun c => c == quoteChar)).reverse.dropWhile
      (fun c => c == quoteChar)).reverse⟩

/-! ### Go `strconv` routines used by the package -/

/-- One base-10 digit. -/
def digitVal (c : Char) : Option Nat :=
  if 48 ≤ c.toNat ∧ c.toNat ≤ 57 then some (c.toNat - 48) else none

/-- Accumulates base-10 digits; fails on the first non-digit. -/
def parseDigitsAux : List Char → Nat → Option Nat
  | [], acc => some acc
  | c :: cs, acc =>
    match digitVal c with
    | none => none
    | some d => parseDigitsAux cs (acc * 10 + d)

/-- A non-empty run of base-10 digits. -/
def parseDigits : List Char → Option Nat
  | [] => none
  | c :: cs => parseDigitsAux (c :: cs) 0

/-- Models `strconv.ParseInt(s, 10, 64)`: optional sign, one or more base-10
    digits, result within the signed 64-bit range; `none` models a non-nil
    error. -/
def ParseInt (s : String) : Option Int :=
  match s.data with
  | [] => none
  | c :: rest =>
    let signAndDigits : Bool × List Char :=
      if c = '-' then (true, rest)
      else if c = '+' then (false, rest)
      else (false, c :: rest)
    match parseDigits signAndDigits.2 with
    | none => none
    | some n =>
      if signAndDigits.1 then
        if n ≤ 9223372036854775808 then some (-(n : Int)) else none
      else
        if n ≤ 9223372036854775807 then some ((n : Int)) else none

/-- Models `strconv.Atoi` (64-bit `int`): `ParseInt(s, 10, 0)`. -/
def Atoi (s : String) : Option Int := ParseInt s

/-- Models `strconv.ParseBool`: accepts exactly
    1, t, T, TRUE, true, True, 0, f, F, FALSE, false, False. -/
def goParseBool (s : String) : Option Bool :=
  if s = "1" || s = "t" || s = "T" || s = "TRUE" || s = "true" || s = "True" then
    some true
  else if s = "0" || s = "f" || s = "F" || s = "FALSE" || s = "false" || s = "False" then
    some false
  else none

/-! ### The `tbconfig` data model -/

/-- `TransformType` is a string-backed enum in the Go source. -/
abbrev TransformType := String

/-- Transform constant: percent-encode for URL embedding. -/
def TransformURLEscape : TransformType := "url_escape"

/-- Transform constant: strip ports from a host list. -/
def TransformHostsNoPorts : TransformType := "hosts_no_ports"

def configTagEnv : String := "env:"
def configTagDefault : String := "default:"
def configTagSep : String := "sep:"
def configTagTransform : String := "transform:"
def configTagDesc : String := "desc:"
def configTagRequired : String := "required"

/-- The environment-selector environment variable name. -/
def ServiceEnvVarName : String := "NODE_ENV"

/-- `Env` is a string-backed enum in the Go source. -/
abbrev Env := String

def EnvProd : Env := "production"
def EnvStaging : Env := "staging"
def EnvLocal : Env := "local"

/-- The per-field descriptor `ConfigField` parsed from a `config` struct tag. -/
structure ConfigField where
  EnvVar : String := ""
  Default : String := ""
  Required : Bool := false
  Transform : TransformType := ""
  Separator : String := ""
  Description : String := ""
  deriving DecidableEq

/-- One trimmed directive of a `config` tag, applied to the descriptor under
    construction; mirrors the `switch` in `parseConfigTag`, including the
    single-quote stripping on `sep:` values. -/
def parseDirective (config : ConfigField) (rawPart : String) : ConfigField :=
  let part := goTrimSpace rawPart
  if goStartsWith part configTagEnv then
    { config with EnvVar := goDropPref part configTagEnv }
  else if goStartsWith part configTagDefault then
    { config with Default := goDropPref part configTagDefault }
  else if goStartsWith part configTagSep then
    let sep := goDropPref part configTagSep
    let sep := if goStartsWith sep quoteStr && goEndsWith sep quoteStr then
      goTrimQuotes sep else sep
    { config with Separator := sep }
  else if goStartsWith part configTagTransform then
    { config with Transform := goDropPref part configTagTransform }
  else if goStartsWith part configTagDesc then
    { config with Description := goDropPref part configTagDesc }
  else if part = configTagRequired then
    { config with Required := true }
  else config

/-- Models `parseConfigTag`: split the tag on commas and fold the directives
    over an empty descriptor.  (The Go function also returns an `error`, but
    every path returns `nil` for it, so the result type omits it.) -/
def parseConfigTag (tag : String) : ConfigField :=
  (goSplit tag ",").foldl parseDirective {}

/-! ### The transform registry -/

/-- UTF-8 encoding of one character, as the list of its byte values. -/
def utf8EncodeChar (c : Char) : List Nat :=
  let n := c.toNat
  if n < 128 then [n]
  else if n < 2048 then
    [192 + n / 64, 128 + n % 64]
  else if n < 65536 then
    [224 + n / 4096, 128 + (n / 64) % 64, 128 + n % 64]
  else
    [240 + n / 262144, 128 + (n / 4096) % 64, 128 + (n / 64) % 64, 128 + n % 64]

/-- The UTF-8 byte sequence of a string (Go strings are byte strings; the
    escaping below operates on bytes). -/
def utf8Bytes (s : String) : List Nat :=
  s.data.foldr (fun c acc => utf8EncodeChar c ++ acc) []

/-- Go `net/url.shouldEscape(c, encodeQueryComponent)`: every byte is escaped
    except ASCII alphanumerics and `-`, `_`, `.`, `~`. -/
def shouldEscapeQuery (b : Nat) : Bool :=
  !((97 ≤ b && b ≤ 122) || (65 ≤ b && b ≤ 90) || (48 ≤ b && b ≤ 57) ||
    b = 45 || b = 95 || b = 46 || b = 126)

/-- An upper-case hexadecimal digit. -/
def upperHexDigit (n : Nat) : Char :=
  if n < 10 then Char.ofNat (48 + n) else Char.ofNat (55 + n)

/-- One byte of `net/url.QueryEscape` output: space becomes `+`, other escaped
    bytes become `%XX`, the rest are copied verbatim. -/
def escapeByte (b : Nat) : List Char :=
  if shouldEscapeQuery b then
    if b = 32 then ['+']
    else ['%', upperHexDigit (b / 16), upperHexDigit (b % 16)]
  else [Char.ofNat b]

/-- Models `net/url.QueryEscape`. -/
def queryEscape (s : String) : String :=
  ⟨(utf8Bytes s).foldr (fun b acc => escapeByte b ++ acc) []⟩

/-- Models `applyTransform`: dispatch on the transform name; `url_escape`
    percent-encodes, `hosts_no_ports` and every other name are the identity. -/
def applyTransform (value : String) (transform : TransformType) : String :=
  if transform = TransformURLEscape then queryEscape value
  else if transform = TransformHostsNoPorts then value
  else value

/-! ### The binding engine -/

/-- The value of one struct field, classified by its reflected kind exactly as
    the `switch field.Kind()` in `setFieldValue` distinguishes them:
    strings, signed integers (modelled at the 64-bit width `SetInt` uses),
    booleans, string slices, slices of any other element type, and every
    remaining kind. -/
inductive FieldValue where
  | str (s : String)
  | int (i : Int)
  | bool (b : Bool)
  | strSlice (xs : List String)
  | sliceNonString
  | otherKind
  deriving DecidableEq

/-- The structured failures of `setFieldValue` (in the Go source these are
    `fmt.Errorf` values; only their kind and payload are modelled). -/
inductive BindError where
  | missingRequired (envVar : String)
  | intCoercion (value : String)
  | boolCoercion (value : String)
  | unsupportedSliceType
  | unsupportedFieldType
  deriving DecidableEq

instance {ε α : Type} [DecidableEq ε] [DecidableEq α] : DecidableEq (Except ε α) :=
  fun x y =>
    match x, y with
    | .ok a, .ok b =>
      if h : a = b then isTrue (by rw [h]) else isFalse (fun hh => h (Except.ok.inj hh))
    | .error a, .error b =>
      if h : a = b then isTrue (by rw [h]) else isFalse (fun hh => h (Except.error.inj hh))
    | .ok _, .error _ => isFalse (fun hh => Except.noConfusion hh)
    | .error _, .ok _ => isFalse (fun hh => Except.noConfusion hh)

/-- `strings.Split(host, ":")[0]`: the part of a host before its first `:`. -/
def stripPort (host : String) : String := (goSplit host ":").headD ""

/-- The slice computed by the `reflect.Slice` case of `setFieldValue`: default
    the separator to `,`; split a non-empty transformed value and, for the
    `hosts_no_ports` transform, strip the port of each element; otherwise split
    a non-empty default literal; otherwise the nil slice. -/
def sliceValue (transformedValue : String) (config : ConfigField) : List String :=
  let separator := if config.Separator = "" then "," else config.Separator
  if transformedValue ≠ "" then
    let s := goSplit transformedValue separator
    if config.Transform = TransformHostsNoPorts then s.map stripPort else s
  else if config.Default ≠ "" then
    goSplit config.Default separator
  else []

/-- The `switch field.Kind()` of `setFieldValue`: coerce the transformed value
    into the field's kind, keeping the prior value of integer and boolean
    fields when the value is empty. -/
def setFieldTyped (field : FieldValue) (transformedValue : String)
    (config : ConfigField) : Except BindError FieldValue :=
  match field with
  | .str _ => .ok (.str transformedValue)
  | .int i =>
    if transformedValue = "" then .ok (.int i)
    else
      match ParseInt transformedValue with
      | none => .error (.intCoercion transformedValue)
      | some n => .ok (.int n)
  | .bool b =>
    if transformedValue = "" then .ok (.bool b)
    else
      match goParseBool transformedValue with
      | none => .error (.boolCoercion transformedValue)
      | some v => .ok (.bool v)
  | .strSlice _ => .ok (.strSlice (sliceValue transformedValue config))
  | .sliceNonString => .error .unsupportedSliceType
  | .otherKind => .error .unsupportedFieldType

/-- Models `setFieldValue`: resolve the raw value from the environment with the
    default as fallback, enforce `required`, apply the transform, then coerce
    by field kind. -/
def setFieldValue (field : FieldValue) (config : ConfigField) (src : Source) :
    Except BindError FieldValue :=
  if config.Required = true ∧ getEnv src config.EnvVar config.Default = "" then
    .error (.missingRequired config.EnvVar)
  else
    setFieldTyped field
      (applyTransform (getEnv src config.EnvVar config.Default) config.Transform)
      config

/-- One field of the target struct: its name, its raw `config` tag (empty when
    the tag is absent), whether reflection can set it, and its current value. -/
structure Field where
  name : String
  tag : String
  canSet : Bool
  value : FieldValue
  deriving DecidableEq

/-- Field update helper (reflection's in-place write). -/
def withValue (f : Field) (v : FieldValue) : Field := ⟨f.name, f.tag, f.canSet, v⟩

/-- The argument passed to `LoadConfig`, classified exactly as the
    `v.Kind() != reflect.Ptr || v.Elem().Kind() != reflect.Struct` check
    distinguishes it. -/
inductive GoValue where
  | ptrToStruct (fields : List Field)
  | ptrToNonStruct
  | nonPtrValue
  deriving DecidableEq

/-- The failures `LoadConfig` can return. -/
inductive GoError where
  | notBindable
  | bootstrapLoadFailed
  | fieldError (fieldName : String) (e : BindError)
  deriving DecidableEq

/-- The field loop of `loadConfigIntoStruct`: skip unsettable and untagged
    fields, bind the rest in declaration order, stop at the first error;
    fields bound before a failure keep their new values (partial mutation). -/
def bindFields (src : Source) : List Field → List Field × Option GoError
  | [] => ([], none)
  | f :: rest =>
    if f.canSet = false then
      (f :: (bindFields src rest).1, (bindFields src rest).2)
    else if f.tag = "" then
      (f :: (bindFields src rest).1, (bindFields src rest).2)
    else
      match setFieldValue f.value (parseConfigTag f.tag) src with
      | .error e => (f :: rest, some (.fieldError f.name e))
      | .ok v =>
        (withValue f v :: (bindFields src rest).1, (bindFields src rest).2)

/-- Models `loadConfigIntoStruct`: reject anything that is not a pointer to a
    struct before touching any field, then run the field loop. -/
def loadConfigIntoStruct (cfg : GoValue) (src : Source) : GoValue × Option GoError :=
  match cfg with
  | .ptrToStruct fields =>
    (.ptrToStruct (bindFields src fields).1, (bindFields src fields).2)
  | .ptrToNonStruct => (cfg, some .notBindable)
  | .nonPtrValue => (cfg, some .notBindable)

/-- The write performed by `v.FieldByName("Env")` when the field is settable
    and of string kind (the `type Env string` alias also has string kind, so
    the same branch covers it). -/
def setEnvValue (f : Field) (env : String) : Field :=
  if f.canSet = true then
    match f.value with
    | .str _ => ⟨f.name, f.tag, f.canSet, .str env⟩
    | _ => f
  else f

/-- Apply `setEnvValue` to the field named `Env`, if any (Go struct field
    names are unique; the first match is the field `FieldByName` returns). -/
def setEnvFields (env : String) : List Field → List Field
  | [] => []
  | f :: rest =>
    if f.name = "Env" then setEnvValue f env :: rest
    else f :: setEnvFields env rest

/-- The `Env`-field write of `LoadConfig` lifted to the whole argument.  (On
    the success path the argument is always a pointer to a struct, so the
    other branches are unreachable there.) -/
def setEnvGoValue (cfg : GoValue) (env : String) : GoValue :=
  match cfg with
  | .ptrToStruct fields => .ptrToStruct (setEnvFields env fields)
  | other => other

/-- The tail of `LoadConfig`: bind the fields, then on success set the `Env`
    field when present. -/
def loadAndSetEnv (cfg : GoValue) (src : Source) (env : String) :
    GoValue × Option GoError :=
  match loadConfigIntoStruct cfg src with
  | (cfg2, some e) => (cfg2, some e)
  | (cfg2, none) => (setEnvGoValue cfg2 env, none)

/-- Models `LoadConfig`.  `godotenv.Load(".env")` reads a file and mutates the
    process environment; it is modelled by the explicit parameter `dotenv`:
    `none` is a load failure, `some src2` is the process environment after a
    successful load.  The bootstrap only runs when the selected environment is
    `local`, and its failure aborts the call before any field is touched. -/
def LoadConfig (cfg : GoValue) (src : Source) (dotenv : Option Source) :
    GoValue × Option GoError :=
  let env := getEnv src ServiceEnvVarName EnvLocal
  if env = "local" then
    match dotenv with
    | none => (cfg, some .bootstrapLoadFailed)
    | some src2 => loadAndSetEnv cfg src2 env
  else loadAndSetEnv cfg src env

/-! ### Auxiliary standalone lookups -/

/-- Models `GetEnvAsInt`: a single-key lookup parsed with `strconv.Atoi`,
    falling back to the caller-supplied default on any parse failure. -/
def GetEnvAsInt (src : Source) (name : String) (defaultVal : Int) : Int :=
  match Atoi (getEnv src name "") with
  | some value => value
  | none => defaultVal

/-- Models `GetEnvAsBool`. -/
def GetEnvAsBool (src : Source) (name : String) (defaultVal : Bool) : Bool :=
  match goParseBool (getEnv src name "") with
  | some v => v
  | none => defaultVal

/-- Models `GetEnvAsSlice`. -/
def GetEnvAsSlice (src : Source) (name : String) (defaultVal : List String)
    (sep : String) : List String :=
  let valStr := getEnv src name ""
  if valStr = "" then defaultVal else goSplit valStr sep

/-! ## Helper lemmas -/

/-- `strings.Split` never returns an empty list of parts. -/
theorem splitFuel_ne_nil (c0 : Char) (r : List Char) :
    ∀ (fuel : Nat) (l : List Char), splitFuel c0 r fuel l ≠ [] := by
  intro fuel
  induction fuel with
  | zero =>
    intro l
    cases l <;> simp [splitFuel]
  | succ n ih =>
    intro l
    cases l with
    | nil => simp [splitFuel]
    | cons c cs =>
      simp only [splitFuel]
      split
      · simp
      · cases h : splitFuel c0 r n cs with
        | nil => exact absurd h (ih cs)
        | cons hh tt => simp

/-- For a one-character separator, the first part of `strings.Split` is the
    longest separator-free initial segment. -/
theorem splitFuel_headD (c0 : Char) :
    ∀ (fuel : Nat) (l : List Char), l.length ≤ fuel →
      (splitFuel c0 [] fuel l).headD [] = l.takeWhile (fun c => c != c0) := by
  intro fuel
  induction fuel with
  | zero =>
    intro l hl
    have hnil : l = [] := List.length_eq_zero.mp (Nat.le_zero.mp hl)
    subst hnil
    rfl
  | succ n ih =>
    intro l hl
    cases l with
    | nil => rfl
    | cons c cs =>
      simp only [splitFuel]
      by_cases hc : c = c0
      · rw [if_pos (by simp [hc, isPref])]
        simp [List.takeWhile_cons, hc]
      · rw [if_neg (by simp [hc, isPref])]
        cases h : splitFuel c0 [] n cs with
        | nil => exact absurd h (splitFuel_ne_nil c0 [] n cs)
        | cons hh tt =>
          have hih := ih cs (Nat.le_of_succ_le_succ (by simpa using hl))
          rw [h] at hih
          simp only [List.headD_cons] at hih
          simp [List.takeWhile_cons, hc, hih]

/-- `strings.Split(host, ":")[0]` keeps exactly the characters before the
    first colon: the port-stripping in the slice-coercion path. -/
theorem stripPort_eq (host : String) :
    stripPort host = ⟨host.data.takeWhile (fun ch => ch != ':')⟩ := by
  have h1 : goSplit host ":" = (splitFuel ':' [] host.data.length host.data).map String.mk := rfl
  unfold stripPort
  rw [h1]
  cases h : splitFuel ':' [] host.data.length host.data with
  | nil => exact absurd h (splitFuel_ne_nil _ _ _ _)
  | cons hh tt =>
    have hhead := splitFuel_headD ':' host.data.length host.data (Nat.le_refl _)
    rw [h] at hhead
    simp only [List.headD_cons] at hhead
    simp only [List.map_cons, List.headD_cons]
    rw [hhead]

/-! ## Claim theorems -/

/-- C2: for every annotated field whose descriptor has `required = true`, whose
    source key has no entry in the key/value source, and whose default literal
    is the empty string, binding the field fails with the `MissingRequired`
    error for that field's source key. -/
theorem setFieldValue_missingRequired (field : FieldValue) (config : ConfigField)
    (src : Source) (hreq : config.Required = true)
    (hlook : lookupEnv src config.EnvVar = none) (hdef : config.Default = "") :
    setFieldValue field config src = .error (.missingRequired config.EnvVar) := by
  have hraw : getEnv src config.EnvVar config.Default = "" := by
    unfold getEnv; rw [hlook, hdef]
  unfold setFieldValue
  rw [if_pos ⟨hreq, hraw⟩]

/-- Witness for C2: a required field with unset key and empty default fails. -/
theorem setFieldValue_missingRequired_witness :
    setFieldValue (.str "") ⟨"K", "", true, "", "", ""⟩ [] =
      .error (.missingRequired "K") :=
  setFieldValue_missingRequired _ _ _ rfl rfl rfl

/-- C6: the `url_escape` transform percent-encodes with form-value escaping:
    on `"p@ss w!th sp&cial"` it yields exactly `"p%40ss+w%21th+sp%26cial"`,
    and on every input the dispatch returns the total function `queryEscape`
    (so the transform is defined and never fails for every input string). -/
theorem applyTransform_urlEscape_spec :
    applyTransform "p@ss w!th sp&cial" TransformURLEscape = "p%40ss+w%21th+sp%26cial"
    ∧ ∀ value : String, applyTransform value TransformURLEscape = queryEscape value := by
  refine ⟨by decide, ?_⟩
  intro value
  unfold applyTransform
  rw [if_pos rfl]

/-- C8: for every argument that is not a mutable reference to a struct (a
    pointer to a non-struct, or a non-pointer value such as a primitive),
    `loadConfigIntoStruct` fails with the `NotBindable` error and returns the
    argument untouched: no field of any record is written. -/
theorem loadConfigIntoStruct_notBindable (cfg : GoValue) (src : Source)
    (h : cfg = GoValue.ptrToNonStruct ∨ cfg = GoValue.nonPtrValue) :
    loadConfigIntoStruct cfg src = (cfg, some GoError.notBindable) := by
  rcases h with h | h <;> subst h <;> rfl

/-- Witness for C8: a non-pointer argument fails with `NotBindable`. -/
theorem loadConfigIntoStruct_notBindable_witness :
    loadConfigIntoStruct GoValue.nonPtrValue [] =
      (GoValue.nonPtrValue, some GoError.notBindable) :=
  loadConfigIntoStruct_notBindable _ _ (Or.inr rfl)

/-- C9: the bootstrap environment check runs before the target-type check:
    when the environment-selector key is unset or equals `"local"` and the
    local environment file fails to load, `LoadConfig` returns the
    bootstrap-load error for every argument — including arguments that are not
    pointers to structs — and returns the argument untouched, so the
    `NotBindable` check is never reached. -/
theorem loadConfig_bootstrapFirst (cfg : GoValue) (src : Source)
    (h : lookupEnv src ServiceEnvVarName = none ∨
      lookupEnv src ServiceEnvVarName = some "local") :
    LoadConfig cfg src none = (cfg, some GoError.bootstrapLoadFailed) := by
  have henv : getEnv src ServiceEnvVarName EnvLocal = "local" := by
    unfold getEnv
    rcases h with h | h
    · rw [h]; rfl
    · rw [h]
  unfold LoadConfig
  rw [henv, if_pos rfl]

/-- Witness for C9: with the selector unset, a non-bindable argument still
    gets the bootstrap error, not `NotBindable`. -/
theorem loadConfig_bootstrapFirst_witness :
    LoadConfig GoValue.nonPtrValue [] none =
      (GoValue.nonPtrValue, some GoError.bootstrapLoadFailed) :=
  loadConfig_bootstrapFirst _ _ (Or.inl rfl)

/-- C10: `GetEnvAsInt` returns the caller-supplied default both when the key
    is unset and whenever the value fails to parse as a base-10 integer
    (including the empty string); being a total function, it surfaces no error
    to the caller. -/
theorem getEnvAsInt_default (src : Source) (name : String) (d : Int) :
    (lookupEnv src name = none → GetEnvAsInt src name d = d)
    ∧ (∀ v, lookupEnv src name = some v → Atoi v = none → GetEnvAsInt src name d = d)
    ∧ Atoi "" = none := by
  refine ⟨?_, ?_, by decide⟩
  · intro h
    have hg : getEnv src name "" = "" := by unfold getEnv; rw [h]
    unfold GetEnvAsInt
    rw [hg]
    rfl
  · intro v hv ha
    have hg : getEnv src name "" = v := by unfold getEnv; rw [hv]
    unfold GetEnvAsInt
    rw [hg, ha]

/-- Witness for C10: an unparsable value falls back to the default. -/
theorem getEnvAsInt_default_witness :
    GetEnvAsInt [("K", "abc")] "K" 7 = 7 :=
  (getEnvAsInt_default [("K", "abc")] "K" 7).2.1 "abc" rfl (by decide)

/-- C1: for every string-slice field whose descriptor names the
    `hosts_no_ports` transform and whose resolved value is non-empty, binding
    splits the value on the descriptor's separator (defaulting to `","`) and
    then strips everything after and including the first `:` of each element,
    regardless of the field's prior value. -/
theorem setFieldValue_hostsNoPorts (config : ConfigField) (prior : List String)
    (src : Source) (htr : config.Transform = TransformHostsNoPorts)
    (hne : getEnv src config.EnvVar config.Default ≠ "") :
    setFieldValue (.strSlice prior) config src =
      .ok (.strSlice ((goSplit (getEnv src config.EnvVar config.Default)
          (if config.Separator = "" then "," else config.Separator)).map
        (fun host => String.mk (host.data.takeWhile (fun ch => ch != ':'))))) := by
  have hid : applyTransform (getEnv src config.EnvVar config.Default) config.Transform
      = getEnv src config.EnvVar config.Default := by
    unfold applyTransform
    rw [htr]
    rw [if_neg (by decide), if_pos rfl]
  unfold setFieldValue
  rw [if_neg (fun hcon => hne hcon.2)]
  unfold setFieldTyped sliceValue
  rw [hid, if_pos hne, htr, if_pos rfl]
  have hsp : stripPort = fun host => String.mk (host.data.takeWhile (fun ch => ch != ':')) :=
    funext stripPort_eq
  rw [hsp]

/-- Witness for C1: the spec's example — source value
    `"host1:9042,host2:9042,host3:9042"` binds to `["host1","host2","host3"]`. -/
theorem setFieldValue_hostsNoPorts_witness :
    setFieldValue (.strSlice []) ⟨"SCYLLA_CONTACT_POINTS", "", false, "hosts_no_ports", ",", ""⟩
        [("SCYLLA_CONTACT_POINTS", "host1:9042,host2:9042,host3:9042")] =
      .ok (.strSlice ["host1", "host2", "host3"]) :=
  (setFieldValue_hostsNoPorts _ _ _ rfl (by decide)).trans (by decide)

/-- Counterexample for C4 as stated: an integer-typed field whose
    resolved-and-transformed value is the empty string is NOT always left at
    its prior value without error — with `required` set and the key unset the
    bind fails with `MissingRequired` instead. -/
theorem setFieldValue_emptyKeeps_cex :
    applyTransform (getEnv [] "K" "") "" = ""
    ∧ setFieldValue (.int 5) ⟨"K", "", true, "", "", ""⟩ [] =
        .error (.missingRequired "K")
    ∧ setFieldValue (.int 5) ⟨"K", "", true, "", "", ""⟩ [] ≠ .ok (.int 5) := by
  decide

/-- C4 (amended): for every integer- or boolean-typed annotated field whose
    required check passes (not required, or resolved raw value non-empty), an
    empty resolved-and-transformed value leaves the field at its prior value
    with no error; string-typed fields passing the required check are assigned
    the transformed value verbatim, possibly empty. -/
theorem setFieldValue_emptyKeeps (config : ConfigField) (src : Source)
    (hreq : ¬(config.Required = true ∧ getEnv src config.EnvVar config.Default = "")) :
    (∀ i : Int,
      applyTransform (getEnv src config.EnvVar config.Default) config.Transform = "" →
        setFieldValue (.int i) config src = .ok (.int i))
    ∧ (∀ b : Bool,
      applyTransform (getEnv src config.EnvVar config.Default) config.Transform = "" →
        setFieldValue (.bool b) config src = .ok (.bool b))
    ∧ (∀ s : String, setFieldValue (.str s) config src =
        .ok (.str (applyTransform (getEnv src config.EnvVar config.Default)
          config.Transform))) := by
  refine ⟨?_, ?_, ?_⟩
  · intro i h
    unfold setFieldValue
    rw [if_neg hreq]
    unfold setFieldTyped
    rw [h]
    rfl
  · intro b h
    unfold setFieldValue
    rw [if_neg hreq]
    unfold setFieldTyped
    rw [h]
    rfl
  · intro s
    unfold setFieldValue
    rw [if_neg hreq]
    rfl

/-- Witness for C4 (amended): a non-required int field with everything unset
    keeps its prior value, and a string field is assigned verbatim. -/
theorem setFieldValue_emptyKeeps_witness :
    setFieldValue (.int 5) ⟨"K", "", false, "", "", ""⟩ [] = .ok (.int 5) :=
  (setFieldValue_emptyKeeps ⟨"K", "", false, "", "", ""⟩ [] (by decide)).1 5 (by decide)

/-- Counterexample for C7 as stated: a string-slice field with empty
    transformed value and non-empty default literal is NOT always bound to the
    split default — with `required` set and the source entry present but equal
    to the empty string, the bind fails with `MissingRequired` instead of
    splitting the default. -/
theorem setFieldValue_sliceDefault_cex :
    applyTransform (getEnv [("K", "")] "K" "d1:1,d2:2") "hosts_no_ports" = ""
    ∧ setFieldValue (.strSlice []) ⟨"K", "d1:1,d2:2", true, "hosts_no_ports", "", ""⟩
        [("K", "")] = .error (.missingRequired "K")
    ∧ setFieldValue (.strSlice []) ⟨"K", "d1:1,d2:2", true, "hosts_no_ports", "", ""⟩
        [("K", "")] ≠ .ok (.strSlice ["d1:1", "d2:2"]) := by
  decide

/-- C7 (amended): for every string-slice field whose required check passes,
    whose resolved-and-transformed value is empty and whose default literal is
    non-empty, bind splits the default literal (not the empty transformed
    value) on the separator; this default-splitting path applies no transform
    and no per-element port-stripping even when the descriptor names
    `hosts_no_ports`. -/
theorem setFieldValue_sliceDefault (config : ConfigField) (prior : List String)
    (src : Source)
    (hreq : ¬(config.Required = true ∧ getEnv src config.EnvVar config.Default = ""))
    (hempty : applyTransform (getEnv src config.EnvVar config.Default) config.Transform = "")
    (hdef : config.Default ≠ "") :
    setFieldValue (.strSlice prior) config src =
      .ok (.strSlice (goSplit config.Default
        (if config.Separator = "" then "," else config.Separator))) := by
  unfold setFieldValue
  rw [if_neg hreq]
  unfold setFieldTyped sliceValue
  rw [hempty, if_neg (fun hcon => hcon rfl), if_pos hdef]

/-- Witness for C7 (amended): a `hosts_no_ports` slice field with the source
    entry set to the empty string splits its default literal with the ports
    left intact. -/
theorem setFieldValue_sliceDefault_witness :
    setFieldValue (.strSlice []) ⟨"K", "d1:1,d2:2", false, "hosts_no_ports", "", ""⟩
        [("K", "")] = .ok (.strSlice ["d1:1", "d2:2"]) :=
  (setFieldValue_sliceDefault ⟨"K", "d1:1,d2:2", false, "hosts_no_ports", "", ""⟩ [] [("K", "")]
    (by decide) (by decide) (by decide)).trans (by decide)

/-- Counterexample for C3 as stated: in the tag `sep:','` the quoted comma is
    itself a directive separator, so the tag splits into `sep:'` and `'`; the
    lone quote is both the head and the tail of the `sep:` value and
    `strings.Trim` removes it entirely, leaving the separator `""`, not `","`.
    (Binding still behaves as expected only because the slice-coercion path
    replaces an empty separator with the default `","`.) -/
theorem parseConfigTag_quotedSep_cex :
    (parseConfigTag ("sep:" ++ quoteStr ++ "," ++ quoteStr)).Separator = ""
    ∧ (parseConfigTag ("sep:" ++ quoteStr ++ "," ++ quoteStr)).Separator ≠ "," := by
  decide

/-- C3 (amended): for every quoted `sep:` directive whose quoted character is
    neither a comma nor a quote, parsing yields the quoted character with the
    surrounding quotes stripped; for the particular tag `sep:','` the comma
    splits the directive list instead and the resulting separator is the empty
    string (which the slice-coercion step later defaults back to `","`). -/
theorem parseConfigTag_quotedSep :
    (∀ c : Char, c ≠ ',' → c ≠ quoteChar →
      (parseConfigTag ("sep:" ++ quoteStr ++ String.singleton c ++ quoteStr)).Separator
        = String.singleton c)
    ∧ (parseConfigTag ("sep:" ++ quoteStr ++ "," ++ quoteStr)).Separator = "" := by
  constructor
  · intro c hc hq
    have hq' : (c == quoteChar) = false := beq_eq_false_iff_ne.mpr hq
    have h39 : quoteChar ≠ ',' := by decide
    have hsplit : splitFuel ',' [] 7 ['s', 'e', 'p', ':', quoteChar, c, quoteChar]
        = [['s', 'e', 'p', ':', quoteChar, c, quoteChar]] := by
      simp [splitFuel, hc, h39]
    have key : parseConfigTag ("sep:" ++ quoteStr ++ String.singleton c ++ quoteStr)
        = parseDirective {} ⟨['s', 'e', 'p', ':', quoteChar, c, quoteChar]⟩ := by
      have hgs : goSplit ("sep:" ++ quoteStr ++ String.singleton c ++ quoteStr) ","
          = [⟨['s', 'e', 'p', ':', quoteChar, c, quoteChar]⟩] := by
        show (splitFuel ',' [] 7 ['s', 'e', 'p', ':', quoteChar, c, quoteChar]).map
            String.mk = _
        rw [hsplit]
        rfl
      unfold parseConfigTag
      rw [hgs]
      rfl
    have hsepd : (parseDirective {} ⟨['s', 'e', 'p', ':', quoteChar, c, quoteChar]⟩).Separator
        = goTrimQuotes ⟨[quoteChar, c, quoteChar]⟩ := rfl
    have htrim : goTrimQuotes ⟨[quoteChar, c, quoteChar]⟩ = ⟨[c]⟩ := by
      unfold goTrimQuotes
      rw [List.dropWhile_cons_of_pos (by simp),
        List.dropWhile_cons_of_neg (by simp [hq'])]
      rw [show (c :: [quoteChar]).reverse = [quoteChar, c] from rfl]
      rw [List.dropWhile_cons_of_pos (by simp),
        List.dropWhile_cons_of_neg (by simp [hq'])]
      rfl
    rw [key, hsepd, htrim]
    rfl
  · decide

/-- Witness for C3 (amended): a quoted semicolon separator parses to `";"`. -/
theorem parseConfigTag_quotedSep_witness :
    (parseConfigTag ("sep:" ++ quoteStr ++ ";" ++ quoteStr)).Separator = ";" := by
  have h := parseConfigTag_quotedSep.1 ';' (by decide) (by decide)
  exact h.trans rfl

/-! ### Idempotence of binding -/

/-- Re-coercing an already-coerced field value with the same transformed value
    yields the same value again. -/
theorem setFieldTyped_idem (v v2 : FieldValue) (tv : String) (config : ConfigField)
    (h : setFieldTyped v tv config = .ok v2) :
    setFieldTyped v2 tv config = .ok v2 := by
  cases v with
  | str s =>
    simp only [setFieldTyped] at h
    injection h with h1
    subst h1
    rfl
  | int i =>
    simp only [setFieldTyped] at h
    by_cases htv : tv = ""
    · rw [if_pos htv] at h
      injection h with h1
      subst h1
      simp only [setFieldTyped]
      rw [if_pos htv]
    · rw [if_neg htv] at h
      cases hp : ParseInt tv with
      | none => rw [hp] at h; exact absurd h (by simp)
      | some n =>
        rw [hp] at h
        injection h with h1
        subst h1
        simp only [setFieldTyped]
        rw [if_neg htv, hp]
  | bool b =>
    simp only [setFieldTyped] at h
    by_cases htv : tv = ""
    · rw [if_pos htv] at h
      injection h with h1
      subst h1
      simp only [setFieldTyped]
      rw [if_pos htv]
    · rw [if_neg htv] at h
      cases hp : goParseBool tv with
      | none => rw [hp] at h; exact absurd h (by simp)
      | some n =>
        rw [hp] at h
        injection h with h1
        subst h1
        simp only [setFieldTyped]
        rw [if_neg htv, hp]
  | strSlice xs =>
    simp only [setFieldTyped] at h
    injection h with h1
    subst h1
    rfl
  | sliceNonString => simp [setFieldTyped] at h
  | otherKind => simp [setFieldTyped] at h

/-- Rebinding an already-bound field value against the same descriptor and
    source succeeds with the same value. -/
theorem setFieldValue_idem (v v2 : FieldValue) (config : ConfigField) (src : Source)
    (h : setFieldValue v config src = .ok v2) :
    setFieldValue v2 config src = .ok v2 := by
  unfold setFieldValue at h ⊢
  by_cases hr : config.Required = true ∧ getEnv src config.EnvVar config.Default = ""
  · rw [if_pos hr] at h
    exact absurd h (by simp)
  · rw [if_neg hr] at h ⊢
    exact setFieldTyped_idem _ _ _ _ h

/-- Binding a string field ignores its prior contents. -/
theorem setFieldValue_str_indep (s1 s2 : String) (config : ConfigField) (src : Source) :
    setFieldValue (.str s1) config src = setFieldValue (.str s2) config src := rfl

theorem withValue_name (f : Field) (v : FieldValue) : (withValue f v).name = f.name := rfl

theorem setEnvValue_name (f : Field) (e : String) : (setEnvValue f e).name = f.name := by
  unfold setEnvValue
  by_cases h : f.canSet = true
  · rw [if_pos h]
    cases f.value <;> rfl
  · rw [if_neg h]

theorem setEnvValue_tag (f : Field) (e : String) : (setEnvValue f e).tag = f.tag := by
  unfold setEnvValue
  by_cases h : f.canSet = true
  · rw [if_pos h]
    cases f.value <;> rfl
  · rw [if_neg h]

theorem setEnvValue_canSet (f : Field) (e : String) : (setEnvValue f e).canSet = f.canSet := by
  unfold setEnvValue
  by_cases h : f.canSet = true
  · rw [if_pos h]
    cases f.value <;> rfl
  · rw [if_neg h]

theorem setEnvValue_eq_of_str (f : Field) (e s : String) (h : f.canSet = true)
    (hv : f.value = .str s) :
    setEnvValue f e = ⟨f.name, f.tag, f.canSet, .str e⟩ := by
  unfold setEnvValue
  rw [if_pos h, hv]

theorem setEnvValue_eq_self_of_notStr (f : Field) (e : String)
    (h : ∀ s, f.value ≠ .str s) : setEnvValue f e = f := by
  unfold setEnvValue
  by_cases hc : f.canSet = true
  · rw [if_pos hc]
    cases hv : f.value with
    | str s => exact absurd hv (h s)
    | int i => rfl
    | bool b => rfl
    | strSlice xs => rfl
    | sliceNonString => rfl
    | otherKind => rfl
  · rw [if_neg hc]

theorem setEnvValue_eq_self_of_notSet (f : Field) (e : String) (h : f.canSet = false) :
    setEnvValue f e = f := by
  unfold setEnvValue
  rw [if_neg (by simp [h])]

/-- Overwriting the `Env` field twice with the same name is the same as
    overwriting it once. -/
theorem setEnvValue_idem (f : Field) (e : String) :
    setEnvValue (setEnvValue f e) e = setEnvValue f e := by
  by_cases hc : f.canSet = true
  · cases hv : f.value with
    | str s =>
      rw [setEnvValue_eq_of_str f e s hc hv]
      exact setEnvValue_eq_of_str ⟨f.name, f.tag, f.canSet, .str e⟩ e e hc rfl
    | int i =>
      have hid := setEnvValue_eq_self_of_notStr f e (by simp [hv])
      rw [hid, hid]
    | bool b =>
      have hid := setEnvValue_eq_self_of_notStr f e (by simp [hv])
      rw [hid, hid]
    | strSlice xs =>
      have hid := setEnvValue_eq_self_of_notStr f e (by simp [hv])
      rw [hid, hid]
    | sliceNonString =>
      have hid := setEnvValue_eq_self_of_notStr f e (by simp [hv])
      rw [hid, hid]
    | otherKind =>
      have hid := setEnvValue_eq_self_of_notStr f e (by simp [hv])
      rw [hid, hid]
  · have hid := setEnvValue_eq_self_of_notSet f e (by simpa using hc)
    rw [hid, hid]

/-- The field loop is idempotent on success. -/
theorem bindFields_idem (src : Source) :
    ∀ (fs fs2 : List Field), bindFields src fs = (fs2, none) →
      bindFields src fs2 = (fs2, none) := by
  intro fs
  induction fs with
  | nil =>
    intro fs2 h
    injection h with ha _
    subst ha
    rfl
  | cons f rest ih =>
    intro fs2 h
    simp only [bindFields] at h
    by_cases h1 : f.canSet = false
    · rw [if_pos h1] at h
      cases hr : bindFields src rest with
      | mk rest2 err =>
        rw [hr] at h
        injection h with ha hb
        subst ha
        subst hb
        simp only [bindFields]
        rw [if_pos h1, ih rest2 hr]
    · by_cases h2 : f.tag = ""
      · rw [if_neg h1, if_pos h2] at h
        cases hr : bindFields src rest with
        | mk rest2 err =>
          rw [hr] at h
          injection h with ha hb
          subst ha
          subst hb
          simp only [bindFields]
          rw [if_neg h1, if_pos h2, ih rest2 hr]
      · rw [if_neg h1, if_neg h2] at h
        cases hsv : setFieldValue f.value (parseConfigTag f.tag) src with
        | error e =>
          rw [hsv] at h
          injection h with _ hb
          cases hb
        | ok v =>
          rw [hsv] at h
          cases hr : bindFields src rest with
          | mk rest2 err =>
            rw [hr] at h
            injection h with ha hb
            subst ha
            subst hb
            simp only [bindFields, withValue]
            rw [if_neg h1, if_neg h2, setFieldValue_idem _ _ _ _ hsv, ih rest2 hr]

/-- Re-running the field loop after the `Env`-field overwrite reaches the same
    final state: the loop ignores the prior contents of every field it binds,
    and the overwrite is re-applied afterwards. -/
theorem bindFields_setEnv (src : Source) (e : String) :
    ∀ (fs fs2 : List Field), bindFields src fs = (fs2, none) →
      ∃ fs3, bindFields src (setEnvFields e fs) = (fs3, none) ∧
        setEnvFields e fs3 = setEnvFields e fs2 := by
  intro fs
  induction fs with
  | nil =>
    intro fs2 h
    injection h with ha _
    subst ha
    exact ⟨[], rfl, rfl⟩
  | cons f rest ih =>
    intro fs2 h
    simp only [bindFields] at h
    by_cases hname : f.name = "Env"
    · have hsf : setEnvFields e (f :: rest) = setEnvValue f e :: rest := by
        simp only [setEnvFields]
        rw [if_pos hname]
      by_cases h1 : f.canSet = false
      · rw [if_pos h1] at h
        rw [hsf, setEnvValue_eq_self_of_notSet f e h1]
        refine ⟨fs2, ?_, rfl⟩
        simp only [bindFields]
        rwa [if_pos h1]
      · by_cases h2 : f.tag = ""
        · rw [if_neg h1, if_pos h2] at h
          cases hr : bindFields src rest with
          | mk rest2 err =>
            rw [hr] at h
            injection h with ha hb
            subst ha
            subst hb
            rw [hsf]
            refine ⟨setEnvValue f e :: rest2, ?_, ?_⟩
            · simp only [bindFields]
              rw [setEnvValue_canSet, setEnvValue_tag, if_neg h1, if_pos h2, hr]
            · simp only [setEnvFields]
              rw [setEnvValue_name, if_pos hname, if_pos hname, setEnvValue_idem]
        · rw [if_neg h1, if_neg h2] at h
          cases hsv : setFieldValue f.value (parseConfigTag f.tag) src with
          | error e2 =>
            rw [hsv] at h
            injection h with _ hb
            cases hb
          | ok v =>
            rw [hsv] at h
            cases hr : bindFields src rest with
            | mk rest2 err =>
              rw [hr] at h
              injection h with ha hb
              subst ha
              subst hb
              rw [hsf]
              cases hv : f.value with
              | str s =>
                have hct : f.canSet = true := by simpa using h1
                rw [setEnvValue_eq_of_str f e s hct hv]
                refine ⟨withValue f v :: rest2, ?_, rfl⟩
                simp only [bindFields]
                have hsv2 : setFieldValue (FieldValue.str e) (parseConfigTag f.tag) src
                    = .ok v := by
                  rw [setFieldValue_str_indep e s, ← hv]
                  exact hsv
                rw [if_neg h1, if_neg h2, hsv2, hr]
                rfl
              | int i =>
                rw [setEnvValue_eq_self_of_notStr f e (by simp [hv])]
                refine ⟨withValue f v :: rest2, ?_, rfl⟩
                simp only [bindFields]
                rw [if_neg h1, if_neg h2, hsv, hr]
              | bool b =>
                rw [setEnvValue_eq_self_of_notStr f e (by simp [hv])]
                refine ⟨withValue f v :: rest2, ?_, rfl⟩
                simp only [bindFields]
                rw [if_neg h1, if_neg h2, hsv, hr]
              | strSlice xs =>
                rw [setEnvValue_eq_self_of_notStr f e (by simp [hv])]
                refine ⟨withValue f v :: rest2, ?_, rfl⟩
                simp only [bindFields]
                rw [if_neg h1, if_neg h2, hsv, hr]
              | sliceNonString =>
                rw [setEnvValue_eq_self_of_notStr f e (by simp [hv])]
                refine ⟨withValue f v :: rest2, ?_, rfl⟩
                simp only [bindFields]
                rw [if_neg h1, if_neg h2, hsv, hr]
              | otherKind =>
                rw [setEnvValue_eq_self_of_notStr f e (by simp [hv])]
                refine ⟨withValue f v :: rest2, ?_, rfl⟩
                simp only [bindFields]
                rw [if_neg h1, if_neg h2, hsv, hr]
    · have hsf : setEnvFields e (f :: rest) = f :: setEnvFields e rest := by
        simp only [setEnvFields]
        rw [if_neg hname]
      by_cases h1 : f.canSet = false
      · rw [if_pos h1] at h
        cases hr : bindFields src rest with
        | mk rest2 err =>
          rw [hr] at h
          injection h with ha hb
          subst ha
          subst hb
          obtain ⟨rest3, hb3, hs3⟩ := ih rest2 hr
          rw [hsf]
          refine ⟨f :: rest3, ?_, ?_⟩
          · simp only [bindFields]
            rw [if_pos h1, hb3]
          · simp only [setEnvFields]
            rw [if_neg hname, if_neg hname, hs3]
      · by_cases h2 : f.tag = ""
        · rw [if_neg h1, if_pos h2] at h
          cases hr : bindFields src rest with
          | mk rest2 err =>
            rw [hr] at h
            injection h with ha hb
            subst ha
            subst hb
            obtain ⟨rest3, hb3, hs3⟩ := ih rest2 hr
            rw [hsf]
            refine ⟨f :: rest3, ?_, ?_⟩
            · simp only [bindFields]
              rw [if_neg h1, if_pos h2, hb3]
            · simp only [setEnvFields]
              rw [if_neg hname, if_neg hname, hs3]
        · rw [if_neg h1, if_neg h2] at h
          cases hsv : setFieldValue f.value (parseConfigTag f.tag) src with
          | error e2 =>
            rw [hsv] at h
            injection h with _ hb
            cases hb
          | ok v =>
            rw [hsv] at h
            cases hr : bindFields src rest with
            | mk rest2 err =>
              rw [hr] at h
              injection h with ha hb
              subst ha
              subst hb
              obtain ⟨rest3, hb3, hs3⟩ := ih rest2 hr
              rw [hsf]
              refine ⟨withValue f v :: rest3, ?_, ?_⟩
              · simp only [bindFields]
                rw [if_neg h1, if_neg h2, hsv, hb3]
              · simp only [setEnvFields, withValue_name]
                rw [if_neg hname, if_neg hname, hs3]

/-- The success path of `LoadConfig` after the bootstrap is idempotent. -/
theorem loadAndSetEnv_idem (cfg : GoValue) (src : Source) (env : String)
    (cfg2 : GoValue) (h : loadAndSetEnv cfg src env = (cfg2, none)) :
    loadAndSetEnv cfg2 src env = (cfg2, none) := by
  cases cfg with
  | ptrToStruct fs =>
    unfold loadAndSetEnv at h
    rw [show loadConfigIntoStruct (GoValue.ptrToStruct fs) src
        = (GoValue.ptrToStruct (bindFields src fs).1, (bindFields src fs).2) from rfl] at h
    cases hb : bindFields src fs with
    | mk fs2' err =>
      rw [hb] at h
      cases err with
      | some e =>
        replace h : (GoValue.ptrToStruct fs2', some e) = (cfg2, none) := h
        injection h with _ hb2
        cases hb2
      | none =>
        replace h : (GoValue.ptrToStruct (setEnvFields env fs2'), none) = (cfg2, none) := h
        injection h with ha _
        subst ha
        have hbi := bindFields_idem src fs fs2' hb
        obtain ⟨fs3, hb3, hs3⟩ := bindFields_setEnv src env fs2' fs2' hbi
        unfold loadAndSetEnv
        rw [show loadConfigIntoStruct (GoValue.ptrToStruct (setEnvFields env fs2')) src
            = (GoValue.ptrToStruct (bindFields src (setEnvFields env fs2')).1,
              (bindFields src (setEnvFields env fs2')).2) from rfl]
        rw [hb3]
        show (GoValue.ptrToStruct (setEnvFields env fs3), none)
            = (GoValue.ptrToStruct (setEnvFields env fs2'), none)
        rw [hs3]
  | ptrToNonStruct =>
    replace h : (GoValue.ptrToNonStruct, some GoError.notBindable) = (cfg2, none) := h
    injection h with _ hb2
    cases hb2
  | nonPtrValue =>
    replace h : (GoValue.nonPtrValue, some GoError.notBindable) = (cfg2, none) := h
    injection h with _ hb2
    cases hb2

/-- C5: binding is idempotent — for every record, key/value source and
    bootstrap outcome, a second `LoadConfig` call on the record produced by a
    successful first call succeeds and leaves the record in exactly the same
    state. -/
theorem loadConfig_idempotent (cfg : GoValue) (src : Source) (dotenv : Option Source)
    (cfg2 : GoValue) (h : LoadConfig cfg src dotenv = (cfg2, none)) :
    LoadConfig cfg2 src dotenv = (cfg2, none) := by
  unfold LoadConfig at h ⊢
  by_cases henv : getEnv src ServiceEnvVarName EnvLocal = "local"
  · rw [if_pos henv] at h ⊢
    cases dotenv with
    | none =>
      injection h with _ hb2
      cases hb2
    | some src2 => exact loadAndSetEnv_idem _ _ _ _ h
  · rw [if_neg henv] at h ⊢
    exact loadAndSetEnv_idem _ _ _ _ h

/-- Witness for C5: a concrete two-field record bound against a fixed source
    reaches a fixed point after one call. -/
theorem loadConfig_idempotent_witness :
    LoadConfig
      (.ptrToStruct [⟨"A", "env:X", true, .str "v"⟩, ⟨"Env", "", true, .str "test"⟩])
      [("NODE_ENV", "test"), ("X", "v")] none =
    (.ptrToStruct [⟨"A", "env:X", true, .str "v"⟩, ⟨"Env", "", true, .str "test"⟩], none) :=
  loadConfig_idempotent
    (.ptrToStruct [⟨"A", "env:X", true, .str ""⟩, ⟨"Env", "", true, .str ""⟩])
    [("NODE_ENV", "test"), ("X", "v")] none
    (.ptrToStruct [⟨"A", "env:X", true, .str "v"⟩, ⟨"Env", "", true, .str "test"⟩])
    (by decide)

end TbConfig
